import Mathlib

/-!
Shallow embedding of `src/qwixx.py` (a simulator of the dice game Qwixx).

Conventions of the embedding:
* Python ints are `Int` (spot values, die faces, scores) or `Nat` (indices,
  counts, penalties).
* Python tuples/lists are Lean `List`s; in-place mutation of a card becomes
  functional update of the game state.
* Fallible Python code (expressions that can raise) is embedded in
  `Except PyErr`; an exception raised by an expression becomes `.error e`
  propagated through the `Except` monad.
* `random.randrange` draws are made explicit: every function that rolls dice
  takes a face stream `faces : Nat -> Int` giving the face of the i-th die
  constructed.
* Player objects (`Player.take_turn`) are modelled by a `Pick` function that
  receives exactly the arguments the engine passes at the call site
  (player index, card, dice, the `turns_to_roller` argument, the
  materialized legal-move list) and selects an index into that list, which
  is how `RandomPlayer` behaves (`choice(list(moves))`).  Both player
  classes in the source (`RandomPlayer`, `HumanPlayer`) consume the lazy
  `moves` generator, so an exception raised while producing the candidate
  takes surfaces during that consumption; the embedding evaluates the move
  list eagerly, which yields the same observable outcome of a turn.
-/

namespace Qwixx

/-- Python exception kinds that the embedded code can raise. -/
inductive PyErr
  | typeError
  | keyError
  | valueError
  | indexError
deriving DecidableEq

/-- `class Color(Enum)` (source lines 25-33): five tags, values
`'R' 'Y' 'G' 'B' 'W'`. -/
inductive Color
  | RED
  | YELLOW
  | GREEN
  | BLUE
  | WHITE
deriving DecidableEq

/-- The one-letter value of a `Color`, as used by `Color.__str__`. -/
def Color.str : Color → String
  | .RED => "R"
  | .YELLOW => "Y"
  | .GREEN => "G"
  | .BLUE => "B"
  | .WHITE => "W"

/-- Value lookup `Color(ch)`: the inverse of the enum value table, `none`
when the character is not a valid value (Python raises ValueError there). -/
def Color.fromChar : Char → Option Color
  | 'R' => some .RED
  | 'Y' => some .YELLOW
  | 'G' => some .GREEN
  | 'B' => some .BLUE
  | 'W' => some .WHITE
  | _ => none

/-- `@dataclass class Row` (source lines 36-73): a fixed spot sequence and
the marks placed so far (`marks` defaults to empty). -/
structure Row where
  spots : List Int
  marks : List Int := []
deriving DecidableEq

instance : Inhabited Row := ⟨⟨[], []⟩⟩

/-- `Row.LOCK_REQUIRES = 5` (source line 40). -/
def Row.LOCK_REQUIRES : Nat := 5

/-- `Row.locked` (source lines 53-55): `bool(self.marks) and
self.marks[-1] == self.spots[-1]`.  (With non-empty marks and empty spots
Python would raise IndexError; every row the program constructs has 11
spots, and the theorems below only use such rows.) -/
def Row.locked (r : Row) : Bool :=
  !r.marks.isEmpty && r.marks.getLast? == r.spots.getLast?

/-- `Row.open_spots` (source lines 57-62): all spots when unmarked,
otherwise the suffix of `spots` strictly after the first index holding the
last mark (`self.spots.index(self.marks[-1])`; Python raises ValueError if
the mark is absent from `spots`, which cannot happen for marks placed by
the program — `List.findIdx` then returns the length and the suffix is
empty). -/
def Row.open_spots (r : Row) : List Int :=
  match r.marks.getLast? with
  | none => r.spots
  | some m => r.spots.drop (r.spots.findIdx (· == m) + 1)

/-- `Row.can_lock` (source lines 64-66): at least `LOCK_REQUIRES` marks. -/
def Row.can_lock (r : Row) : Bool :=
  Row.LOCK_REQUIRES ≤ r.marks.length

/-- `Row.valid_spot` (source lines 68-69): `spot in self.open_spots and not
self.locked and (spot != self.spots[-1] or self.can_lock)`. -/
def Row.valid_spot (r : Row) (spot : Int) : Bool :=
  r.open_spots.contains spot && !r.locked &&
    (r.spots.getLast? != some spot || r.can_lock)

/-- `itertools.accumulate` with the default addition, running sum state
threaded explicitly. -/
def pyAccumulateAux (acc : Int) : List Int → List Int
  | [] => []
  | x :: xs => (acc + x) :: pyAccumulateAux (acc + x) xs

/-- `accumulate(range(13))` starts its running sum at the first element;
starting the auxiliary accumulator at 0 and adding each element gives the
same list. -/
def pyAccumulate (l : List Int) : List Int :=
  pyAccumulateAux 0 l

/-- `range(2, 13)` — the ascending spot sequence. -/
def rangeAsc : List Int := [2, 3, 4, 5, 6, 7, 8, 9, 10, 11, 12]

/-- `range(12, 1, -1)` — the descending spot sequence. -/
def rangeDesc : List Int := [12, 11, 10, 9, 8, 7, 6, 5, 4, 3, 2]

namespace Grid

/-- `Grid.SPOTS` (source line 77). -/
def SPOTS : List (List Int) := [rangeAsc, rangeAsc, rangeDesc, rangeDesc]

/-- `Grid.COLORS` (source line 78). -/
def COLORS : List Color := [.RED, .YELLOW, .GREEN, .BLUE]

/-- `Grid.SCORES = tuple(accumulate(range(13)))` (source line 79). -/
def SCORES : List Int := pyAccumulate ((List.range 13).map fun n => (n : Int))

end Grid

/-- `Row.score` (source lines 71-73): `Grid.SCORES[len(self.marks) +
self.locked]`, the boolean coerced to 0 or 1.  Python would raise
IndexError past index 12; rows hold 11 spots so the index is at most 12,
and the out-of-range default 0 is never consulted on program states. -/
def Row.score (r : Row) : Int :=
  Grid.SCORES.getD (r.marks.length + (if r.locked then 1 else 0)) 0

/-- Dynamically typed `Take.row_id`: the engine builds takes with an `int`
row index (`Dice.table_takes`, `Dice.roller_takes`), while
`Take.from_string` builds takes whose first field is a `Color` member. -/
inductive RowId
  | idx (i : Nat)
  | color (c : Color)
deriving DecidableEq

/-- `@dataclass(frozen=True) class Take` (source lines 129-142): dataclass
equality compares the two fields; a `Color` never equals an `int`, so the
derived equality on `RowId` matches Python `==`. -/
structure Take where
  row_id : RowId
  spot : Int
deriving DecidableEq

/-- `@dataclass(frozen=True) class Die` (source lines 95-107). -/
structure Die where
  color : Color
  face : Int
deriving DecidableEq

namespace Dice

/-- `Dice.NON_GRID_COLORS` (source line 111). -/
def NON_GRID_COLORS : List Color := [.WHITE, .WHITE]

/-- `Dice.COLORS` (source line 112). -/
def COLORS : List Color := NON_GRID_COLORS ++ Grid.COLORS

end Dice

/-- Python `==` between a `Color` enum member and an `int` is always
`False` (enum members compare equal only to themselves). -/
def pyEqColorInt (_c : Color) (_n : Nat) : Bool := false

/-- Python membership of a `Color` in a `set[int]` (the argument
`Game.locked()` passes to `Dice.roll`): tests `==` against the elements,
hence always `False`. -/
def pyMemColorIntSet (c : Color) (locked : List Nat) : Bool :=
  locked.any (pyEqColorInt c)

/-- `Dice.roll` (source lines 114-116): `[Die(c) for c in cls.COLORS if c
not in locked]`, each die drawing a fresh face; the i-th die constructed
gets `faces i`. -/
def Dice.roll (locked : List Nat) (faces : Nat → Int) : List Die :=
  ((Dice.COLORS.filter fun c => !pyMemColorIntSet c locked).enum).map
    fun p => ⟨p.2, faces p.1⟩

/-- `Dice.table_takes` (source lines 118-120): sum the faces of the first
`len(NON_GRID_COLORS)` dice and offer that total once per scoring color,
with the row id the enumeration index. -/
def Dice.table_takes (dice : List Die) : List Take :=
  let total : Int := ((dice.take Dice.NON_GRID_COLORS.length).map (·.face)).sum
  (List.range Grid.COLORS.length).map fun i => ⟨.idx i, total⟩

/-- A value used as a slice endpoint.  `Dice.table_takes` slices with the
int `len(self.NON_GRID_COLORS)`; `Dice.roller_takes` (source line 124) sets
`n = self.NON_GRID_COLORS` — the tuple itself — and slices with that. -/
inductive PySliceArg
  | int (n : Nat)
  | colorTuple (cs : List Color)

/-- `self[:n]`: slicing a tuple by anything without `__index__` raises
TypeError. -/
def pySliceTake (dice : List Die) : PySliceArg → Except PyErr (List Die)
  | .int n => .ok (dice.take n)
  | .colorTuple _ => .error .typeError

/-- `self[n:]`: same TypeError rule as `pySliceTake`. -/
def pySliceDrop (dice : List Die) : PySliceArg → Except PyErr (List Die)
  | .int n => .ok (dice.drop n)
  | .colorTuple _ => .error .typeError

/-- `color_map[c]` (source line 126): the dict `{c: i for i, c in
enumerate(Grid.COLORS)}` is keyed by `Color` members, but the loop variable
`c` is a `Die` drawn from the roll, and a `Die` never equals a `Color`, so
the lookup raises KeyError. -/
def pyColorMapGetDie (_d : Die) : Except PyErr Nat := .error .keyError

/-- `Dice.roller_takes` (source lines 122-126), embedded line by line:
`n = self.NON_GRID_COLORS` binds the tuple (not its length), so both
slices `self[:n]` and `self[n:]` raise TypeError as soon as the generator
is iterated; even with an integer bound, `color_map[c]` would raise
KeyError because `c` is a `Die` while the map is keyed by `Color`. -/
def Dice.roller_takes (dice : List Die) : Except PyErr (List Take) := do
  let n := PySliceArg.colorTuple Dice.NON_GRID_COLORS
  let wh ← pySliceTake dice n
  let cs ← pySliceDrop dice n
  (wh.zip cs).mapM fun p => do
    let i ← pyColorMapGetDie p.2
    pure (⟨RowId.idx i, p.1.face + p.2.face⟩ : Take)

/-- Model of Python `int(s)` on the strings the program feeds it: an
optional sign followed by one or more decimal digits parses; anything else
raises ValueError.  (Surrounding whitespace and underscore separators,
which Python also accepts, never occur in the claims' inputs and are left
out of the model.) -/
def pyInt (s : String) : Except PyErr Int :=
  let core : List Char → Except PyErr Int := fun ds =>
    if ds ≠ [] ∧ ds.all (·.isDigit) then
      .ok (ds.foldl (fun a c => a * 10 + ((c.toNat : Int) - 48)) 0)
    else .error .valueError
  match s.toList with
  | '-' :: rest => (core rest).map Int.neg
  | '+' :: rest => core rest
  | other => core other

/-- `Take.from_string` (source lines 134-139): `cls(Color(s[0]),
int(s[1:]))` with KeyError, IndexError and ValueError all re-raised as
ValueError.  Note the parsed take carries a `Color` as its first field. -/
def Take.from_string (s : String) : Except PyErr Take :=
  match s.toList with
  | [] => .error .valueError
  | c :: rest =>
    match Color.fromChar c with
    | none => .error .valueError
    | some col =>
      match pyInt (String.mk rest) with
      | .error _ => .error .valueError
      | .ok n => .ok ⟨RowId.color col, n⟩

/-- `Take.__str__` (source lines 141-142): `f"{Grid.COLORS[self.row_id]}
{self.spot}"` without the space — indexing `Grid.COLORS` demands an int
row id in range (a `Color` id would raise TypeError, an out-of-range int
IndexError). -/
def Take.str (t : Take) : Except PyErr String :=
  match t.row_id with
  | .idx i =>
    match Grid.COLORS.get? i with
    | some c => .ok (c.str ++ toString t.spot)
    | none => .error .indexError
  | .color _ => .error .typeError

/-- `Move = Optional[Take]` (source line 145): `none` is "pass". -/
abbrev Move := Option Take

/-- `@dataclass class Card` (source lines 148-170): a grid (list of the 4
rows) plus the penalty counter. -/
structure Card where
  grid : List Row
  penalties : Nat := 0
deriving DecidableEq

/-- `Card.PENALTY_LIMIT = 4` (source line 152). -/
def Card.PENALTY_LIMIT : Nat := 4

/-- `Card.PENALTY_POINTS = 5` (source line 153). -/
def Card.PENALTY_POINTS : Nat := 5

/-- `Grid.__new__` / `Card.grid` default (source lines 81-82, 150): one
fresh unmarked row per entry of `Grid.SPOTS`. -/
def Card.new : Card :=
  ⟨Grid.SPOTS.map fun s => ⟨s, []⟩, 0⟩

/-- `Card.score` (source lines 159-160): row scores summed, minus
`penalties * PENALTY_POINTS`. -/
def Card.score (c : Card) : Int :=
  (c.grid.map Row.score).sum - ((c.penalties * Card.PENALTY_POINTS : Nat) : Int)

/-- `Card.locked_row_ids` (source lines 162-163): the positions (ints!) of
the locked rows of the grid. -/
def Card.locked_row_ids (c : Card) : List Nat :=
  (c.grid.enum.filter fun p => p.2.locked).map (·.1)

/-- `self[take.row_id]` for grid indexing (source lines 87-88, 169-170): an
int index in range selects the row; a `Color` row id would raise TypeError
and an out-of-range int IndexError.  Takes reaching these call sites are
engine-generated and always carry int ids 0..3. -/
def takeRowValid (grid : List Row) (t : Take) : Bool :=
  match t.row_id with
  | .idx i => (grid.getD i default).valid_spot t.spot
  | .color _ => false

/-- `Grid.valid_takes` (source lines 87-88): keep the takes whose row
accepts the spot. -/
def Grid.valid_takes (grid : List Row) (takes : List Take) : List Take :=
  takes.filter (takeRowValid grid)

/-- `Grid.mark_count` (source lines 90-92). -/
def Grid.mark_count (grid : List Row) : Nat :=
  (grid.map fun r => r.marks.length).sum

/-- `Card.valid_moves` (source lines 165-167): `None` (pass) first, then
the surviving takes. -/
def Card.valid_moves (c : Card) (takes : List Take) : List Move :=
  none :: (Grid.valid_takes c.grid takes).map some

/-- `Card.apply_take` (source lines 169-170):
`self.grid[take.row_id].marks.append(take.spot)` — the spot is appended
unconditionally, with no validity check of any kind. -/
def Card.apply_take (c : Card) (t : Take) : Except PyErr Card :=
  match t.row_id with
  | .color _ => .error .typeError
  | .idx i =>
    if i < c.grid.length then
      let r := c.grid.getD i default
      .ok { c with grid := c.grid.set i { r with marks := r.marks ++ [t.spot] } }
    else .error .indexError

/-- `@dataclass class Game` (source lines 205-213): one card per player
(the players themselves are modelled by the `Pick` argument of the
stepping functions below), the roller index, and the current dice. -/
structure Game where
  cards : List Card
  roller_id : Nat := 0
  dice : List Die

/-- The decision collaborator: given the player's index, the arguments the
engine passes to `Player.take_turn` (card, dice, the `turns_to_roller`
value, the materialized legal-move list), return an index into that list —
exactly `RandomPlayer`'s `choice(list(moves))` shape.  An out-of-range
index falls back to pass via `List.getD`. -/
abbrev Pick := Nat → Card → List Die → Nat → List Move → Nat

/-- `Game.locked` (source lines 223-224): the set of locked row positions
across all cards; the Python `set` is modelled as the deduplicated
concatenation (only distinct-count and membership are ever used). -/
def Game.locked (g : Game) : List Nat :=
  ((g.cards.map Card.locked_row_ids).flatten).dedup

/-- `Game.is_over` (source lines 226-227): `len(self.locked()) > 1 or
max(c.penalties for c in self.cards) >= Card.PENALTY_LIMIT`.  (`max` on an
empty generator would raise; games always hold at least one card, where
the fold below agrees with Python's `max`.) -/
def Game.is_over (g : Game) : Bool :=
  decide (1 < g.locked.length) ||
    decide (Card.PENALTY_LIMIT ≤ (g.cards.map (·.penalties)).foldl max 0)

/-- `Game.scores` (source lines 229-230). -/
def Game.scores (g : Game) : List Int :=
  g.cards.map Card.score

/-- The third argument `Game.turn` passes to `player.take_turn` (source
line 234): literally `self.roller_id`, the same value for every player of
the round. -/
def Game.turn_turns_to_roller_arg (g : Game) : Nat := g.roller_id

/-- `Game.turn` (source lines 232-236) for the player at `playerIdx`:
materialize the legal moves, ask the collaborator, and apply a chosen take
to that player's card (in-place mutation becomes updating the card list). -/
def Game.turn (g : Game) (pick : Pick) (playerIdx : Nat) (takes : List Take) :
    Except PyErr Game := do
  let card := g.cards.getD playerIdx Card.new
  let moves := card.valid_moves takes
  let move := moves.getD (pick playerIdx card g.dice g.turn_turns_to_roller_arg moves) none
  match move with
  | none => pure g
  | some t => do
    let card2 ← card.apply_take t
    pure { g with cards := g.cards.set playerIdx card2 }

/-- `Game.take_white` (source lines 238-241): the neutral phase, one turn
per player in table order, all offered the same `table_takes`. -/
def Game.take_white (g : Game) (pick : Pick) : Except PyErr Game :=
  let table := Dice.table_takes g.dice
  (List.range g.cards.length).foldlM (fun gs i => gs.turn pick i table) g

/-- `Game.take_colors` (source lines 243-245): the colored phase — only
the roller acts, on the roller candidates.  (`roller_takes()` builds a
generator; the TypeError it raises surfaces when the player's
`take_turn` consumes the moves, which both source players do.) -/
def Game.take_colors (g : Game) (pick : Pick) : Except PyErr Game := do
  let takes ← Dice.roller_takes g.dice
  g.turn pick g.roller_id takes

/-- `Game.do_round` (source lines 247-257): roll (handing `Dice.roll` the
locked row-position set), record the roller's baseline mark count, neutral
phase, termination check A (early `True` return), colored phase, penalty
rule, roller rotation, termination check B. -/
def Game.do_round (g : Game) (faces : Nat → Int) (pick : Pick) :
    Except PyErr (Game × Bool) := do
  let g1 := { g with dice := Dice.roll g.locked faces }
  let roller_marks := Grid.mark_count (g1.cards.getD g1.roller_id Card.new).grid
  let g2 ← g1.take_white pick
  if g2.is_over then
    pure (g2, true)
  else do
    let g3 ← g2.take_colors pick
    let g4 :=
      if roller_marks == Grid.mark_count (g3.cards.getD g3.roller_id Card.new).grid then
        let rc := g3.cards.getD g3.roller_id Card.new
        { g3 with cards := g3.cards.set g3.roller_id { rc with penalties := rc.penalties + 1 } }
      else g3
    let g5 := { g4 with roller_id := (g4.roller_id + 1) % g4.cards.length }
    pure (g5, g5.is_over)

/-- `Game.play` (source lines 259-263): repeat `do_round` until it reports
the game over, then return the scores.  The loop is given explicit fuel
(`none` = fuel ran out before the loop finished); `faces r` is the face
stream of the round burning fuel value `r`. -/
def Game.play : Nat → Game → (Nat → Nat → Int) → Pick → Option (Except PyErr (List Int))
  | 0, _, _, _ => none
  | fuel + 1, g, faces, pick =>
    match g.do_round (faces fuel) pick with
    | .error e => some (.error e)
    | .ok (g2, true) => some (.ok g2.scores)
    | .ok (g2, false) => Game.play fuel g2 faces pick

/-- The loop variable of `HumanPlayer.take_turn` (source lines 194-202):
it starts as the sentinel `object()`, which compares equal to nothing, and
is then overwritten with parsed moves. -/
inductive HMove
  | sentinel
  | mv (m : Move)
deriving DecidableEq

/-- The move the loop returns once its condition fails. -/
def HMove.toMove : HMove → Move
  | .sentinel => none
  | .mv m => m

/-- Python `==` between the loop variable and an element of the moves
generator: the sentinel `object()` equals nothing; otherwise compare the
moves. -/
def hmEq : HMove → Move → Bool
  | .sentinel, _ => false
  | .mv m, m2 => m == m2

/-- Python `x in gen` on a generator: pull elements until one equals `x`,
returning whether a match was found and the elements left unconsumed.  The
generator is single-use — consumed elements are gone for later tests. -/
def genScan (x : HMove) : List Move → Bool × List Move
  | [] => (false, [])
  | y :: ys => if hmEq x y then (true, ys) else genScan x ys

/-- One console entry (source lines 196-201): `'p'`/`'P'` becomes pass;
otherwise `Take.from_string`, a ValueError being suppressed so the loop
variable keeps its previous value. -/
def humanParse (s : String) (move : HMove) : HMove :=
  if s.toLower == "p" then .mv none
  else
    match Take.from_string s with
    | .ok t => .mv (some t)
    | .error _ => move

/-- The `while move not in moves` loop (source lines 195-201), driven by
the finite list of console inputs still available: test membership in what
remains of the moves generator; on failure consume the next input (running
out of inputs while the loop still spins is reported as `none` — the
program would be blocked at the prompt). -/
def humanLoop : List String → HMove → List Move → Option Move
  | [], move, gen =>
    if (genScan move gen).1 then some move.toMove else none
  | s :: rest, move, gen =>
    match genScan move gen with
    | (true, _) => some move.toMove
    | (false, gen2) => humanLoop rest (humanParse s move) gen2

/-- `HumanPlayer.take_turn` (source lines 188-202), console inputs made
explicit: start from the sentinel and loop; `some m` is the move returned,
`none` means the loop was still running when the given inputs ran out. -/
def HumanPlayer.take_turn (inputs : List String) (moves : List Move) : Option Move :=
  humanLoop inputs .sentinel moves

/-! Concrete fixtures used by the theorems below. -/

/-- An ascending row whose last mark is its final spot: locked. -/
def lockedRedRow : Row := ⟨rangeAsc, [2, 3, 4, 5, 6, 12]⟩

/-- A one-player game whose card has the red row (row position 0) locked. -/
def gRedLocked : Game :=
  ⟨[⟨[lockedRedRow, ⟨rangeAsc, []⟩, ⟨rangeDesc, []⟩, ⟨rangeDesc, []⟩], 0⟩], 0, []⟩

/-- A collaborator that always picks index 0 of the legal-move list, i.e.
always passes (`valid_moves` puts pass first). -/
def passPick : Pick := fun _ _ _ _ _ => 0

/-- A collaborator that takes the first offered take exactly when it is
told it is the roller (`turns_to_roller = 0`) and passes otherwise. -/
def rollerOnlyPick : Pick := fun _ _ _ ttr _ => if ttr == 0 then 1 else 0

/-- A fresh two-player game, dice as rolled by `Game.__post_init__`'s
default with all faces 1. -/
def gFresh2 : Game := ⟨[Card.new, Card.new], 0, Dice.roll [] fun _ => 1⟩

/-- A fresh two-player game whose roller is player 1, all faces 1. -/
def gFresh2Roller1 : Game := ⟨[Card.new, Card.new], 1, Dice.roll [] fun _ => 1⟩

/-- The engine-produced take "red 8" (row position 0, spot 8). -/
def takeRed8 : Take := ⟨.idx 0, 8⟩

/-- A roll with every face 4, so both neutral dice show 4 and the neutral
total is 8. -/
def diceAll4 : List Die := Dice.roll [] fun _ => 4

/-- The legal-move list a fresh card offers against the all-4 roll's
neutral candidates: pass and the four takes at spot 8. -/
def movesFresh8 : List Move := Card.new.valid_moves (Dice.table_takes diceAll4)

/-! Shared helper lemmas. -/

/-- Membership of a `Color` in an int set is always false, element by
element. -/
theorem pyMemColorIntSet_false (c : Color) (locked : List Nat) :
    pyMemColorIntSet c locked = false := by
  induction locked with
  | nil => rfl
  | cons n ns ih => simp [pyMemColorIntSet, pyEqColorInt]

/-- `Dice.roll` never drops a die: the colors of a roll are always all six
of `Dice.COLORS`, whatever locked set it is given. -/
theorem roll_colors_eq (locked : List Nat) (faces : Nat → Int) :
    (Dice.roll locked faces).map Die.color = Dice.COLORS := by
  have hfilter :
      (Dice.COLORS.filter fun c => !pyMemColorIntSet c locked) = Dice.COLORS := by
    simp [pyMemColorIntSet_false]
  simp only [Dice.roll, hfilter, List.map_map]
  have : (Die.color ∘ fun p : Nat × Color => (⟨p.2, faces p.1⟩ : Die)) = Prod.snd := rfl
  rw [this, List.enum_map_snd]

/-- Iterating `Dice.roller_takes` raises TypeError at the first slice. -/
theorem roller_takes_raises (dice : List Die) :
    Dice.roller_takes dice = .error .typeError := rfl

/-- `genScan` with the sentinel finds nothing and drains the generator. -/
theorem genScan_sentinel (gen : List Move) :
    genScan .sentinel gen = (false, []) := by
  induction gen with
  | nil => rfl
  | cons y ys ih => simpa [genScan, hmEq] using ih

/-- Once the moves generator is exhausted, the interactive loop never
exits, however many further inputs arrive. -/
theorem humanLoop_emptyGen (inputs : List String) (move : HMove) :
    humanLoop inputs move [] = none := by
  induction inputs generalizing move with
  | nil => rfl
  | cons s rest ih => simpa [humanLoop, genScan] using ih (humanParse s move)

/-- `List.getD` after `List.set` at the same in-range position. -/
theorem getD_set_self (l : List Row) (i : Nat) (a : Row) (h : i < l.length) :
    (l.set i a).getD i default = a := by
  induction l generalizing i with
  | nil => simp at h
  | cons x xs ih =>
    cases i with
    | zero => rfl
    | succ j => simpa [List.set, List.getD] using ih j (by simpa using h)

/-- Setting a position to a card with the same penalty count leaves the
penalty column of the card list unchanged. -/
theorem map_penalties_set (xs : List Card) (i : Nat) (c : Card)
    (h : c.penalties = (xs.getD i Card.new).penalties) :
    (xs.set i c).map (·.penalties) = xs.map (·.penalties) := by
  induction xs generalizing i with
  | nil => rfl
  | cons x rest ih =>
    cases i with
    | zero => simpa using h
    | succ j =>
      simp only [List.set, List.map_cons, List.cons.injEq, true_and]
      exact ih j (by simpa using h)

/-- `Card.apply_take` never touches the penalty counter. -/
theorem apply_take_penalties (c : Card) (t : Take) (c2 : Card)
    (h : c.apply_take t = .ok c2) : c2.penalties = c.penalties := by
  cases t with
  | mk rid spot =>
    cases rid with
    | color col => simp [Card.apply_take] at h
    | idx i =>
      by_cases hi : i < c.grid.length
      · simp only [Card.apply_take, if_pos hi] at h
        cases h
        rfl
      · simp [Card.apply_take, hi] at h

/-- A single `Game.turn` never changes any card's penalty counter. -/
theorem turn_map_penalties (g : Game) (pick : Pick) (i : Nat) (takes : List Take)
    (g2 : Game) (h : g.turn pick i takes = .ok g2) :
    g2.cards.map (·.penalties) = g.cards.map (·.penalties) := by
  simp only [Game.turn] at h
  split at h
  · cases h
    rfl
  · rename_i t _
    cases happ : (g.cards.getD i Card.new).apply_take t with
    | error e =>
      rw [happ] at h
      simp [Except.bind] at h
    | ok card2 =>
      rw [happ] at h
      simp only [Bind.bind, Except.bind, pure, Except.pure] at h
      cases h
      exact map_penalties_set _ _ _ (apply_take_penalties _ _ _ happ)

/-- The neutral-phase fold over any index list never changes penalties. -/
theorem foldl_turn_map_penalties (idxs : List Nat) (pick : Pick) (table : List Take) :
    ∀ (g g2 : Game),
      idxs.foldlM (fun gs i => gs.turn pick i table) g = .ok g2 →
      g2.cards.map (·.penalties) = g.cards.map (·.penalties) := by
  induction idxs with
  | nil =>
    intro g g2 h
    cases h
    rfl
  | cons i rest ih =>
    intro g g2 h
    rw [List.foldlM_cons] at h
    cases hstep : g.turn pick i table with
    | error e => rw [hstep] at h; cases h
    | ok g1 =>
      rw [hstep] at h
      exact (ih g1 g2 h).trans (turn_map_penalties _ _ _ _ _ hstep)

/-- `Game.take_white` never changes penalties. -/
theorem take_white_map_penalties (g g2 : Game) (pick : Pick)
    (h : g.take_white pick = .ok g2) :
    g2.cards.map (·.penalties) = g.cards.map (·.penalties) := by
  rw [Game.take_white] at h
  exact foldl_turn_map_penalties _ _ _ _ _ h

/-- A bound is reached by a running `foldl max` iff it is reached by the
seed or by some element. -/
theorem foldl_max_le_iff (xs : List Nat) : ∀ a k : Nat,
    (k ≤ xs.foldl max a ↔ k ≤ a ∨ ∃ x ∈ xs, k ≤ x) := by
  induction xs with
  | nil => intro a k; simp
  | cons x rest ih =>
    intro a k
    rw [List.foldl_cons, ih (max a x) k]
    simp only [le_max_iff, List.mem_cons]
    constructor
    · rintro (⟨ha | hx⟩ | ⟨y, hy, hky⟩)
      · exact Or.inl ha
      · exact Or.inr ⟨x, Or.inl rfl, hx⟩
      · exact Or.inr ⟨y, Or.inr hy, hky⟩
    · rintro (ha | ⟨y, rfl | hy, hky⟩)
      · exact Or.inl (Or.inl ha)
      · exact Or.inl (Or.inr hky)
      · exact Or.inr ⟨y, hy, hky⟩

/-- On a four-row grid, `locked_row_ids` is the filter of the row
positions 0..3 whose row is locked. -/
theorem lockedRowIds_eq4 (c : Card) (h : c.grid.length = 4) :
    c.locked_row_ids = (List.range 4).filter fun r => (c.grid.getD r default).locked := by
  obtain ⟨grid, pen⟩ := c
  rcases grid with _ | ⟨r0, _ | ⟨r1, _ | ⟨r2, _ | ⟨r3, _ | ⟨r4, rest⟩⟩⟩⟩⟩
  · simp at h
  · simp at h
  · simp at h
  · simp at h
  · have henum : List.enum [r0, r1, r2, r3] = [(0, r0), (1, r1), (2, r2), (3, r3)] := rfl
    have hrange : List.range 4 = [0, 1, 2, 3] := rfl
    simp only [Card.locked_row_ids, henum, hrange]
    cases h0 : r0.locked <;> cases h1 : r1.locked <;> cases h2 : r2.locked <;>
      cases h3 : r3.locked <;>
      simp [List.filter, h0, h1, h2, h3]
  · simp at h

/-- The number of distinct locked row positions across all cards equals
the count of row positions 0..3 locked on at least one card. -/
theorem locked_length_eq (g : Game) (h4 : ∀ c ∈ g.cards, c.grid.length = 4) :
    g.locked.length =
      ((List.range 4).filter fun r =>
        g.cards.any fun c => (c.grid.getD r default).locked).length := by
  have hmem : ∀ c ∈ g.cards, ∀ r : Nat,
      r ∈ c.locked_row_ids ↔ (r < 4 ∧ (c.grid.getD r default).locked = true) := by
    intro c hc r
    rw [lockedRowIds_eq4 c (h4 c hc)]
    simp [List.mem_filter, List.mem_range]
  have hfin : ((g.cards.map Card.locked_row_ids).flatten).toFinset =
      ((List.range 4).filter fun r =>
        g.cards.any fun c => (c.grid.getD r default).locked).toFinset := by
    ext r
    simp only [List.mem_toFinset, List.mem_flatten, List.mem_map, List.mem_filter,
      List.mem_range, List.any_eq_true]
    constructor
    · rintro ⟨l, ⟨c, hc, rfl⟩, hr⟩
      have hrc := (hmem c hc r).1 hr
      exact ⟨hrc.1, ⟨c, hc, hrc.2⟩⟩
    · rintro ⟨hr4, c, hc, hlocked⟩
      exact ⟨c.locked_row_ids, ⟨c, hc, rfl⟩, (hmem c hc r).2 ⟨hr4, hlocked⟩⟩
  have h1 : g.locked.length = ((g.cards.map Card.locked_row_ids).flatten).toFinset.card := by
    rw [Game.locked]
    exact (List.card_toFinset _).symm
  have h2 : ((List.range 4).filter fun r =>
      g.cards.any fun c => (c.grid.getD r default).locked).toFinset.card =
      ((List.range 4).filter fun r =>
        g.cards.any fun c => (c.grid.getD r default).locked).length :=
    List.toFinset_card_of_nodup ((List.nodup_range 4).filter _)
  rw [h1, hfin, h2]

/-! Claim theorems. -/

/-- C1: the claim says a locked color's die is omitted from every
subsequent roll.  The code tests `Color` membership in the locked set of
int row positions, which is always false, so no die is ever omitted: with
red (row position 0) locked on the only card the locked set is `{0}` and
the roll still carries all six dice, the red one included. -/
theorem C1_locked_color_still_rolled :
    (∀ (locked : List Nat) (faces : Nat → Int),
      (Dice.roll locked faces).map Die.color = Dice.COLORS) ∧
    Game.locked gRedLocked = [0] ∧
    (Dice.roll (Game.locked gRedLocked) fun _ => 1).map Die.color = Dice.COLORS ∧
    Color.RED ∈ (Dice.roll (Game.locked gRedLocked) fun _ => 1).map Die.color :=
  ⟨roll_colors_eq, by decide, by decide, by decide⟩

/-- C2: the claim says `roller_takes` pairs each colored die with a
neutral die and raises no error.  In the code `n = self.NON_GRID_COLORS`
binds the tuple itself, so the slice `self[:n]` raises TypeError as soon
as the generator is iterated, for every roll — and the colored phase,
which consumes it, propagates that error. -/
theorem C2_roller_takes_raises :
    (∀ dice : List Die, Dice.roller_takes dice = .error .typeError) ∧
    (∀ (g : Game) (pick : Pick), Game.take_colors g pick = .error .typeError) :=
  ⟨roller_takes_raises, fun _ _ => rfl⟩

/-- C3: `is_over` does return true exactly when more than one distinct
scoring color's row is locked on some card or some card has 4 or more
penalties (row positions 0..3 standing for the four scoring colors); but
`play` never returns the scores: already in its first round the colored
phase raises TypeError (via `roller_takes`), so on a fresh two-player game
`play` propagates that error whatever fuel, faces and choices it is
given. -/
theorem C3_is_over_iff_play_raises :
    (∀ g : Game, g.cards ≠ [] → (∀ c ∈ g.cards, c.grid.length = 4) →
      (g.is_over = true ↔
        (1 < ((List.range 4).filter fun r =>
            g.cards.any fun c => (c.grid.getD r default).locked).length ∨
          ∃ c ∈ g.cards, Card.PENALTY_LIMIT ≤ c.penalties))) ∧
    (∀ (fuel : Nat) (faces : Nat → Nat → Int),
      Game.play (fuel + 1) gFresh2 faces passPick = some (.error .typeError)) := by
  constructor
  · intro g hne h4
    rw [Game.is_over, locked_length_eq g h4]
    simp only [Bool.or_eq_true, decide_eq_true_eq]
    constructor
    · rintro (hlock | hpen)
      · exact Or.inl hlock
      · rcases (foldl_max_le_iff _ 0 Card.PENALTY_LIMIT).1 hpen with hle | ⟨x, hx, hkx⟩
        · exact absurd hle (by decide)
        · obtain ⟨c, hc, rfl⟩ := List.mem_map.1 hx
          exact Or.inr ⟨c, hc, hkx⟩
    · rintro (hlock | ⟨c, hc, hpen⟩)
      · exact Or.inl hlock
      · refine Or.inr ((foldl_max_le_iff _ 0 Card.PENALTY_LIMIT).2 ?_)
        exact Or.inr ⟨c.penalties, List.mem_map.2 ⟨c, hc, rfl⟩, hpen⟩
  · intro fuel faces
    rfl

/-- Witness for C3's `is_over` equivalence on the fresh two-player game
(both sides false: nothing is locked and no penalties exist). -/
theorem C3_is_over_iff_play_raises_witness :
    (gFresh2.cards ≠ [] ∧ ∀ c ∈ gFresh2.cards, c.grid.length = 4) ∧
    (gFresh2.is_over = true ↔
      (1 < ((List.range 4).filter fun r =>
          gFresh2.cards.any fun c => (c.grid.getD r default).locked).length ∨
        ∃ c ∈ gFresh2.cards, Card.PENALTY_LIMIT ≤ c.penalties)) :=
  ⟨⟨by decide, by decide⟩,
   C3_is_over_iff_play_raises.1 gFresh2 (by decide) (by decide)⟩

/-- C4: `valid_spot v` is true iff `v` is among the open spots, the row is
not locked, and `v` is not the final spot unless at least `LOCK_REQUIRES`
(5) marks exist; on the ascending row with marks `[4, 7]` the open spots
are `[8, 9, 10, 11, 12]`, spot 12 is invalid and spot 8 valid. -/
theorem C4_valid_spot_iff (r : Row) (v : Int) (hs : r.spots ≠ []) :
    (r.valid_spot v = true ↔
      (v ∈ r.open_spots ∧ r.locked = false ∧
        (v ≠ r.spots.getLast hs ∨ Row.LOCK_REQUIRES ≤ r.marks.length))) ∧
    Row.open_spots ⟨rangeAsc, [4, 7]⟩ = [8, 9, 10, 11, 12] ∧
    Row.valid_spot ⟨rangeAsc, [4, 7]⟩ 12 = false ∧
    Row.valid_spot ⟨rangeAsc, [4, 7]⟩ 8 = true := by
  refine ⟨?_, by decide, by decide, by decide⟩
  have hlast : r.spots.getLast? = some (r.spots.getLast hs) :=
    List.getLast?_eq_getLast _ hs
  simp only [Row.valid_spot, Row.can_lock, hlast, Bool.and_eq_true, Bool.or_eq_true,
    List.contains, List.elem_iff, bne_iff_ne, Bool.not_eq_true', ne_eq,
    Option.some.injEq, decide_eq_true_eq]
  constructor
  · rintro ⟨⟨hmem, hlk⟩, hor⟩
    exact ⟨hmem, hlk, by tauto⟩
  · rintro ⟨hmem, hlk, hor⟩
    exact ⟨⟨hmem, hlk⟩, by tauto⟩

/-- Witness for C4 at the spec's scenario row with `v = 8`. -/
theorem C4_valid_spot_iff_witness :
    rangeAsc ≠ [] ∧
    ((Row.valid_spot ⟨rangeAsc, [4, 7]⟩ 8 = true ↔
      ((8 : Int) ∈ Row.open_spots ⟨rangeAsc, [4, 7]⟩ ∧
        Row.locked ⟨rangeAsc, [4, 7]⟩ = false ∧
        ((8 : Int) ≠ (Row.mk rangeAsc [4, 7]).spots.getLast (by decide) ∨
          Row.LOCK_REQUIRES ≤ (Row.mk rangeAsc [4, 7]).marks.length))) ∧
      Row.open_spots ⟨rangeAsc, [4, 7]⟩ = [8, 9, 10, 11, 12] ∧
      Row.valid_spot ⟨rangeAsc, [4, 7]⟩ 12 = false ∧
      Row.valid_spot ⟨rangeAsc, [4, 7]⟩ 8 = true) :=
  ⟨by decide, C4_valid_spot_iff ⟨rangeAsc, [4, 7]⟩ 8 (by decide)⟩

/-- C5: the score table is the triangular numbers 0..78, a row's score
indexes it by mark count plus one when locked, and a card's score is the
row total minus five points per penalty. -/
theorem C5_scores :
    Grid.SCORES = [0, 1, 3, 6, 10, 15, 21, 28, 36, 45, 55, 66, 78] ∧
    (∀ r : Row,
      r.score = ([0, 1, 3, 6, 10, 15, 21, 28, 36, 45, 55, 66, 78] : List Int).getD
        (r.marks.length + if r.locked then 1 else 0) 0) ∧
    (∀ c : Card, c.score = (c.grid.map Row.score).sum - (c.penalties : Int) * 5) := by
  refine ⟨by decide, ?_, ?_⟩
  · intro r
    rw [Row.score, show Grid.SCORES = [0, 1, 3, 6, 10, 15, 21, 28, 36, 45, 55, 66, 78] by decide]
  · intro c
    rw [Card.score, Card.PENALTY_POINTS]
    push_cast
    ring

/-- C6: the claim says a round that reaches the penalty step increments
the roller's penalties exactly when its mark count is unchanged.  In the
code no round ever reaches the penalty step: either the neutral phase
fails, or the round ends at the post-neutral termination check with every
penalty counter untouched, or the colored phase raises TypeError (via
`roller_takes`) before the penalty comparison — so penalties never change
in `do_round` at all. -/
theorem C6_penalty_step_unreachable :
    ∀ (g : Game) (faces : Nat → Int) (pick : Pick),
      (∃ e, g.do_round faces pick = .error e) ∨
      (∃ g2, g.do_round faces pick = .ok (g2, true) ∧
        g2.cards.map (·.penalties) = g.cards.map (·.penalties)) := by
  intro g faces pick
  simp only [Game.do_round]
  cases hw : Game.take_white { g with dice := Dice.roll g.locked faces } pick with
  | error e =>
    left
    exact ⟨e, rfl⟩
  | ok gw =>
    cases hov : gw.is_over with
    | true =>
      right
      refine ⟨gw, ?_, ?_⟩
      · simp only [Bind.bind, Except.bind, hov]
        rfl
      · exact take_white_map_penalties { g with dice := Dice.roll g.locked faces } gw pick hw
    | false =>
      left
      refine ⟨.typeError, ?_⟩
      simp only [Bind.bind, Except.bind, hov]
      rfl

/-- C7: the claim says the `turns_to_roller` argument counts the turns
until the acting player becomes roller, with 0 exactly for the roller.
The code passes `self.roller_id` to every call: with roller 1 in a
two-player game every player — the roller included — receives 1, so a
collaborator that acts exactly when handed 0 never acts and the neutral
phase leaves the game unchanged. -/
theorem C7_turns_to_roller_is_roller_id :
    (∀ g : Game, Game.turn_turns_to_roller_arg g = g.roller_id) ∧
    gFresh2Roller1.roller_id = 1 ∧
    Game.turn_turns_to_roller_arg gFresh2Roller1 = 1 ∧
    Game.take_white gFresh2Roller1 rollerOnlyPick = .ok gFresh2Roller1 :=
  ⟨fun _ => rfl, rfl, rfl, rfl⟩

/-- C8: the claim says text round-trips to an equal Take.  The engine take
"red 8" is `Take(0, 8)` (int row position) and prints as `"R8"`, but
`from_string` rebuilds it as `Take(Color.RED, 8)`, which dataclass
equality distinguishes from `Take(0, 8)`; ill-formed strings do fail with
ValueError as claimed. -/
theorem C8_round_trip_not_equal :
    takeRed8 ∈ Dice.table_takes diceAll4 ∧
    Take.str takeRed8 = .ok "R8" ∧
    Take.from_string "R8" = .ok ⟨RowId.color Color.RED, 8⟩ ∧
    (⟨RowId.color Color.RED, 8⟩ : Take) ≠ takeRed8 ∧
    Take.from_string "Q8" = .error .valueError ∧
    Take.from_string "Rxy" = .error .valueError ∧
    Take.from_string "R" = .error .valueError ∧
    Take.from_string "" = .error .valueError :=
  ⟨by decide, rfl, rfl, by decide, rfl, rfl, rfl, rfl⟩

/-- C9 counterexample: spot 12 is invalid on a fresh red row (final spot,
no marks yet), but applying the take is not rejected — the mark list
changes to `[12]`. -/
theorem C9_apply_invalid_not_rejected :
    Row.valid_spot ⟨rangeAsc, []⟩ 12 = false ∧
    Card.apply_take Card.new ⟨.idx 0, 12⟩ =
      .ok ⟨[⟨rangeAsc, [12]⟩, ⟨rangeAsc, []⟩, ⟨rangeDesc, []⟩, ⟨rangeDesc, []⟩], 0⟩ :=
  ⟨by decide, rfl⟩

/-- C9 amended: `apply_take` validates nothing — any in-range take is
appended to its row's marks unconditionally — while invalid values are
instead excluded upstream: the legal-move set contains, besides pass, only
candidate takes whose spot their row accepts. -/
theorem C9_amended_no_validation_filter_upstream :
    (∀ (c : Card) (i : Nat) (v : Int), i < c.grid.length →
      ∃ c2, c.apply_take ⟨.idx i, v⟩ = .ok c2 ∧
        (c2.grid.getD i default).marks = (c.grid.getD i default).marks ++ [v] ∧
        c2.penalties = c.penalties) ∧
    (∀ (c : Card) (takes : List Take) (t : Take),
      some t ∈ c.valid_moves takes → t ∈ takes ∧ takeRowValid c.grid t = true) := by
  constructor
  · intro c i v h
    let r0 := c.grid.getD i default
    refine ⟨{ c with grid := c.grid.set i { r0 with marks := r0.marks ++ [v] } }, ?_, ?_, rfl⟩
    · simp only [Card.apply_take, if_pos h]
    · rw [getD_set_self _ _ _ h]
  · intro c takes t h
    simp only [Card.valid_moves, List.mem_cons, reduceCtorEq, List.mem_map,
      Option.some.injEq, false_or] at h
    obtain ⟨x, hx, rfl⟩ := h
    simpa [Grid.valid_takes, List.mem_filter] using hx

/-- Witness for C9's amended claim: applying `(row 0, spot 12)` to a fresh
card appends even though the spot is invalid, and the only legal non-pass
move offered from the candidate `(row 0, spot 5)` is indeed valid. -/
theorem C9_amended_witness :
    (0 < Card.new.grid.length ∧
      ∃ c2, Card.new.apply_take ⟨.idx 0, 12⟩ = .ok c2 ∧
        (c2.grid.getD 0 default).marks = (Card.new.grid.getD 0 default).marks ++ [12] ∧
        c2.penalties = Card.new.penalties) ∧
    (some ⟨RowId.idx 0, 5⟩ ∈ Card.new.valid_moves [⟨RowId.idx 0, 5⟩] ∧
      (⟨RowId.idx 0, 5⟩ : Take) ∈ ([⟨RowId.idx 0, 5⟩] : List Take) ∧
        takeRowValid Card.new.grid ⟨RowId.idx 0, 5⟩ = true) :=
  ⟨⟨by decide, C9_amended_no_validation_filter_upstream.1 Card.new 0 12 (by decide)⟩,
   ⟨by decide,
    C9_amended_no_validation_filter_upstream.2 Card.new [⟨RowId.idx 0, 5⟩]
      ⟨RowId.idx 0, 5⟩ (by decide)⟩⟩

/-- C10: the claim says the interactive loop terminates with a legal move
once a legal encoding is entered.  The moves generator is single-use: the
very first `move not in moves` test (with the sentinel, which equals
nothing) drains it, so every later membership test sees an empty stream
and the loop never exits — for any legal-move set and any finite input
sequence, `'p'` included. -/
theorem C10_human_loop_never_returns :
    ∀ (inputs : List String) (moves : List Move),
      HumanPlayer.take_turn inputs moves = none := by
  intro inputs moves
  cases inputs with
  | nil =>
    show humanLoop [] .sentinel moves = none
    rw [humanLoop, genScan_sentinel]
    rfl
  | cons s rest =>
    show humanLoop (s :: rest) .sentinel moves = none
    rw [humanLoop, genScan_sentinel]
    exact humanLoop_emptyGen rest (humanParse s .sentinel)

end Qwixx
